import Mathlib

/-
  Verification development for the Farkle / Zehntausend (10.000) dice engine.

  The engine exists in two parallel implementations in the repository:
  a TypeScript engine (web-ui/src/farkle-engine.ts, class FarkleEngine) and
  a C++ core (src/farkle_core.cpp, class FarkleEngine, exported via pybind).
  Both are embedded below, shallowly and line-by-line:

  * `DieState`, `GameStatus`, `Die`, `Player` mirror the shared data model.
  * Namespace `TS` embeds the TypeScript engine.  Randomness is modelled by
    an injected stream `rnd : Nat -> Rat` of Math.random() draws (one draw per
    die position); `Math.ceil(r * 6)` becomes `Int.ceil (r * 6)`.
  * Namespace `Cpp` embeds the C++ core.  `uniform_int_distribution<>(1,6)`
    is modelled by a stream of naturals mapped through `% 6 + 1`, which is
    exactly the distribution's contract (a value in [1,6] per draw).

  Mutating methods become state-passing functions; the sequential mutations
  of each method are reproduced stage by stage.
-/

inductive DieState where
  | rolled
  | kept
  | banked
deriving DecidableEq

inductive GameStatus where
  | rolling
  | farkle
  | bust
  | win
deriving DecidableEq

inductive PlayerType where
  | human
  | computer
deriving DecidableEq

/-- A die: stable id, face value, lifecycle state (farkle-engine.ts lines 4-8,
farkle_core.cpp lines 11-15). Values are integers; the TS engine can in
principle store any `Math.ceil` result, hence `Int`. -/
structure Die where
  id : Nat
  value : Int
  state : DieState
deriving DecidableEq

/-- A player as in farkle-engine.ts lines 12-17 (id, type, name, score). -/
structure Player where
  id : Nat
  ptype : PlayerType
  name : String
  score : Nat
deriving DecidableEq

-- ---------------------------------------------------------------------------
-- Shared dice-list helpers (used by both embeddings)
-- ---------------------------------------------------------------------------

/-- Values of the dice currently in state Kept, in list order. -/
def keptVals (l : List Die) : List Int :=
  (l.filter (fun d => decide (d.state = DieState.kept))).map (fun d => d.value)

/-- Values of the dice currently in state Rolled, in list order. -/
def rolledVals (l : List Die) : List Int :=
  (l.filter (fun d => decide (d.state = DieState.rolled))).map (fun d => d.value)

def anyKept (l : List Die) : Bool :=
  l.any (fun d => decide (d.state = DieState.kept))

def anyRolled (l : List Die) : Bool :=
  l.any (fun d => decide (d.state = DieState.rolled))

/-- Every Kept die becomes Banked (roll step 1 / bank, in both engines). -/
def bankKept (l : List Die) : List Die :=
  l.map (fun d => if d.state = DieState.kept then { d with state := DieState.banked } else d)

/-- Every die becomes Rolled (hot-hand reset / pass_turn). -/
def setAllRolled (l : List Die) : List Die :=
  l.map (fun d => { d with state := DieState.rolled })

/-- Un-keep every Kept die sharing the clicked value (toggle, Kept branch). -/
def unkeepValue (v : Int) (l : List Die) : List Die :=
  l.map (fun d =>
    if d.value = v ∧ d.state = DieState.kept then { d with state := DieState.rolled } else d)

/-- Mark the first `needed` Rolled dice of value `v` as Kept, scanning the pool
in order — the TS `rolledOfVal.slice(0, 3).forEach(d => d.state = 'kept')` and
the C++ `needed` loop in toggle_keep have exactly this effect. -/
def promoteKept (v : Int) : Nat → List Die → List Die
  | _, [] => []
  | 0, ds => ds
  | n + 1, d :: rest =>
      if d.value = v ∧ d.state = DieState.rolled then
        { d with state := DieState.kept } :: promoteKept v n rest
      else
        d :: promoteKept v (n + 1) rest

/-- Mark the first die with the given id as Kept (`die.state = 'kept'` on the
result of find / find_if). -/
def setKeptFirst (did : Nat) : List Die → List Die
  | [] => []
  | d :: rest =>
      if d.id = did then { d with state := DieState.kept } :: rest
      else d :: setKeptFirst did rest

/-- Number of dice of value `v` in state Rolled. -/
def countRolledVal (l : List Die) (v : Int) : Nat :=
  l.countP (fun d => decide (d.value = v ∧ d.state = DieState.rolled))

/-- Number of dice of value `v` in state Kept. -/
def countKeptVal (l : List Die) (v : Int) : Nat :=
  l.countP (fun d => decide (d.value = v ∧ d.state = DieState.kept))

def countRolled (l : List Die) : Nat :=
  l.countP (fun d => decide (d.state = DieState.rolled))

def countKept (l : List Die) : Nat :=
  l.countP (fun d => decide (d.state = DieState.kept))

def countBanked (l : List Die) : Nat :=
  l.countP (fun d => decide (d.state = DieState.banked))

/-- Ids of the pool, in order. -/
def diceIds (l : List Die) : List Nat := l.map (fun d => d.id)

-- ---------------------------------------------------------------------------
-- Scoring
-- ---------------------------------------------------------------------------

/-- Scoring potential of a list of face values, farkle-engine.ts lines 97-101
and farkle_core.cpp lines 86-94: a 1, a 5, or any value occurring at least
three times. -/
def hasScoringPotential (values : List Int) : Bool :=
  (0 < values.count 1) || (0 < values.count 5) ||
    values.any (fun v => decide (3 ≤ values.count v))

namespace TS

/-- The TS `while (count >= 3) { score += base; count -= 3 }` loop of
evaluateScoring (farkle-engine.ts lines 225-228): returns the score
accumulated from complete triples together with the remaining count. -/
def whileTriples (base : Nat) : Nat → Nat × Nat
  | 0 => (0, 0)
  | 1 => (0, 1)
  | 2 => (0, 2)
  | c + 3 =>
      let p := whileTriples base c
      (base + p.1, p.2)

/-- Per-face contribution of the TS evaluateScoring loop body
(farkle-engine.ts lines 222-232). -/
def scoreFor (values : List Int) (i : Nat) : Nat :=
  let base := if i = 1 then 1000 else i * 100
  let p := whileTriples base (values.count (i : Int))
  p.1 + (if i = 1 then p.2 * 100 else 0) + (if i = 5 then p.2 * 50 else 0)

/-- TS evaluateScoring (farkle-engine.ts lines 209-235): every complete group
of three scores its base additively, leftover ones score 100 and leftover
fives 50. -/
def evaluateScoring (values : List Int) : Nat :=
  (([1, 2, 3, 4, 5, 6] : List Nat).map (scoreFor values)).sum

end TS

namespace Cpp

/-- Per-face contribution of the C++ evaluate_scoring loop body
(farkle_core.cpp lines 100-109): a count of three or more scores
`base * 2^(count-3)` and absorbs all dice of that value; otherwise the
leftover ones/fives score singles. -/
def scoreFor (values : List Int) (i : Nat) : Nat :=
  let c := values.count (i : Int)
  let base := if i = 1 then 1000 else i * 100
  if 3 ≤ c then base * 2 ^ (c - 3)
  else (if i = 1 then c * 100 else 0) + (if i = 5 then c * 50 else 0)

/-- C++ evaluate_scoring (farkle_core.cpp lines 96-111): doubling rule for
four-or-more of a kind. -/
def evaluate_scoring (values : List Int) : Nat :=
  (([1, 2, 3, 4, 5, 6] : List Nat).map (scoreFor values)).sum

end Cpp

/-- Canonical doubling scoring rule, written out from the specification text
(spec §4.1): for each face value with count ≥ 3 award the base (1000 for
ones, value×100 otherwise) doubled once per die beyond the third; leftover
ones score 100 each, leftover fives 50 each, other leftovers 0.  This
definition follows the spec's words and is compared against the code's
evaluators. -/
def specCanonicalFaceScore (values : List Int) (i : Nat) : Nat :=
  let c : Nat := values.count (i : Int)
  let base : Nat := if i = 1 then 1000 else i * 100
  if 3 ≤ c then base * 2 ^ (c - 3)
  else if i = 1 then c * 100
  else if i = 5 then c * 50
  else 0

def specCanonicalScore (values : List Int) : Nat :=
  (([1, 2, 3, 4, 5, 6] : List Nat).map (specCanonicalFaceScore values)).sum

example : TS.evaluateScoring [1, 1, 1, 1] = 1100 := by decide

example : Cpp.evaluate_scoring [1, 1, 1, 1] = 2000 := by decide

example : TS.evaluateScoring [1, 1, 1] = 1000 ∧ TS.evaluateScoring [5, 5, 5] = 500 ∧
    TS.evaluateScoring [2, 2, 2] = 200 ∧ TS.evaluateScoring [1] = 100 ∧
    TS.evaluateScoring [5] = 50 ∧ TS.evaluateScoring [2] = 0 ∧
    TS.evaluateScoring [] = 0 := by decide

-- ---------------------------------------------------------------------------
-- The TypeScript engine (web-ui/src/farkle-engine.ts)
-- ---------------------------------------------------------------------------

namespace TS

/-- Observable state of the TS FarkleEngine class (farkle-engine.ts
lines 21-28). -/
structure FarkleEngine where
  players : List Player
  currentPlayerIndex : Nat
  dice : List Die
  turnScore : Nat
  currentKeepScore : Nat
  status : GameStatus
  message : String
deriving DecidableEq

/-- One Math.random() draw turned into a face value:
`Math.ceil(Math.random() * 6)` (farkle-engine.ts lines 48 and 91).  The
ceiling is computed on the draw's numerator and denominator so that the
kernel can evaluate it; `randomFace_eq_ceil` below certifies that this is
exactly `Int.ceil (r * 6)`. -/
def randomFace (r : Rat) : Int := -((-(r.num * 6)) / (r.den : Int))

theorem randomFace_eq_ceil (r : Rat) : randomFace r = Int.ceil (r * 6) := by
  have h6 : ((-(r.num * 6) : Int) : Rat) / ((r.den : Nat) : Rat) = -(r * 6) := by
    push_cast
    rw [neg_div, mul_div_right_comm, Rat.num_div_den]
  have h2 : randomFace r = -((-(r.num * 6)) / (r.den : Int)) := rfl
  rw [h2, ← Rat.floor_intCast_div_natCast, h6, Int.floor_neg, neg_neg]

/-- createDice (farkle-engine.ts lines 45-51): six fresh dice, ids 0..5,
each value drawn from the random source, all Rolled. -/
def createDice (rnd : Nat → Rat) : List Die :=
  (List.range 6).map (fun i => ⟨i, randomFace (rnd i), DieState.rolled⟩)

/-- Players built by the constructor (farkle-engine.ts lines 31-36): player
at position 1 is the computer, everyone else human, scores start at 0. -/
def mkPlayers : Nat → List String → List Player
  | _, [] => []
  | i, n :: rest =>
      ⟨i, if i = 1 then PlayerType.computer else PlayerType.human, n, 0⟩ :: mkPlayers (i + 1) rest

/-- The TS constructor (farkle-engine.ts lines 30-43).  Note: unlike the C++
constructor it does not call roll(). -/
def init (playerNames : List String) (rnd : Nat → Rat) : FarkleEngine :=
  ⟨mkPlayers 0 playerNames, 0, createDice rnd, 0, 0, GameStatus.rolling,
    "Welcome to Farkle! Roll to start."⟩

/-- Assign fresh values to every Rolled die (farkle-engine.ts lines 90-92);
the die at list position j consumes draw `rnd j`. -/
def assignValues (rnd : Nat → Rat) : Nat → List Die → List Die
  | _, [] => []
  | j, d :: rest =>
      (if d.state = DieState.rolled then { d with value := randomFace (rnd j) } else d)
        :: assignValues rnd (j + 1) rest

/-- roll() step 1 (farkle-engine.ts lines 68-75): if any dice are Kept, bank
them and fold currentKeepScore into turnScore. -/
def rollBankPhase (s : FarkleEngine) : FarkleEngine :=
  if anyKept s.dice then
    { s with dice := bankKept s.dice,
             turnScore := s.turnScore + s.currentKeepScore,
             currentKeepScore := 0 }
  else s

/-- roll() step 2 (farkle-engine.ts lines 78-87): hot hand — if no die is
Rolled, reset all six to Rolled. -/
def rollHotHand (s : FarkleEngine) : FarkleEngine :=
  if anyRolled s.dice then s
  else { s with dice := setAllRolled s.dice, message := "Hot Hand! Rolling all 6 dice!" }

/-- roll() steps 1-3 composed: the state just after the new values have been
assigned, before the Farkle check. -/
def rollCore (rnd : Nat → Rat) (s : FarkleEngine) : FarkleEngine :=
  let s2 := rollHotHand (rollBankPhase s)
  { s2 with dice := assignValues rnd 0 s2.dice }

/-- The multiset of values of the newly rolled subset examined by the Farkle
check (farkle-engine.ts line 97): the Rolled dice after reassignment. -/
def newlyRolledValues (rnd : Nat → Rat) (s : FarkleEngine) : List Int :=
  rolledVals (rollCore rnd s).dice

/-- roll() (farkle-engine.ts lines 67-115). -/
def roll (rnd : Nat → Rat) (s : FarkleEngine) : FarkleEngine :=
  let s3 := rollCore rnd s
  if hasScoringPotential (rolledVals s3.dice) then
    { s3 with status := GameStatus.rolling, message := "Select dice to keep." }
  else
    { s3 with status := GameStatus.farkle, message := "Farkle! No points.",
              turnScore := 0, currentKeepScore := 0 }

/-- recalcKeepScore (farkle-engine.ts lines 162-166). -/
def recalcKeepScore (s : FarkleEngine) : FarkleEngine :=
  { s with currentKeepScore := evaluateScoring (keptVals s.dice) }

/-- toggleKeep (farkle-engine.ts lines 117-160).  The Rolled branch counts
only the Rolled dice of the clicked value. -/
def toggleKeep (dieId : Nat) (s : FarkleEngine) : FarkleEngine :=
  if s.status ≠ GameStatus.rolling then s
  else
    match s.dice.find? (fun d => decide (d.id = dieId)) with
    | none => s
    | some die =>
        if die.state = DieState.banked then s
        else if die.state = DieState.kept then
          recalcKeepScore { s with dice := unkeepValue die.value s.dice }
        else
          if 3 ≤ countRolledVal s.dice die.value then
            recalcKeepScore { s with dice := promoteKept die.value 3 s.dice }
          else if die.value = 1 ∨ die.value = 5 then
            recalcKeepScore { s with dice := setKeptFirst dieId s.dice }
          else s

/-- Player list access `this.players[i]`; out-of-range reads never occur in
the claims, which carry an index-validity hypothesis. -/
def getPlayer (ps : List Player) (i : Nat) : Player :=
  ps.getD i ⟨0, PlayerType.human, "", 0⟩

/-- In-place `players[i].score += amt`. -/
def addScore : List Player → Nat → Nat → List Player
  | [], _, _ => []
  | p :: rest, 0, amt => { p with score := p.score + amt } :: rest
  | p :: rest, i + 1, amt => p :: addScore rest i amt

/-- passTurn (farkle-engine.ts lines 190-199): reset the accumulators,
advance the player, build a brand-new pool of Rolled dice.  Note: it does
not call roll(), so no Farkle check runs on the fresh values. -/
def passTurn (rnd : Nat → Rat) (s : FarkleEngine) : FarkleEngine :=
  let idx := (s.currentPlayerIndex + 1) % s.players.length
  { s with turnScore := 0, currentKeepScore := 0, currentPlayerIndex := idx,
           message := (getPlayer s.players idx).name ++ "\x27s Turn",
           dice := createDice rnd, status := GameStatus.rolling }

/-- bank (farkle-engine.ts lines 168-188). -/
def bank (rnd : Nat → Rat) (s : FarkleEngine) : FarkleEngine :=
  if s.currentKeepScore = 0 ∧ s.turnScore = 0 then s
  else
    let ts := s.turnScore + s.currentKeepScore
    let d2 := bankKept s.dice
    let ps2 := addScore s.players s.currentPlayerIndex ts
    if 10000 ≤ (getPlayer ps2 s.currentPlayerIndex).score then
      { s with turnScore := ts, currentKeepScore := 0, dice := d2, players := ps2,
               status := GameStatus.win,
               message := (getPlayer ps2 s.currentPlayerIndex).name ++ " Wins!" }
    else
      passTurn rnd { s with turnScore := ts, currentKeepScore := 0, dice := d2, players := ps2 }

/-- The reachable states of one TS engine instance: the constructor output,
closed under the public operations, for every behaviour of the random
source. -/
inductive Reachable : FarkleEngine → Prop
  | init (names : List String) (rnd : Nat → Rat) : Reachable (init names rnd)
  | roll (rnd : Nat → Rat) {s : FarkleEngine} : Reachable s → Reachable (roll rnd s)
  | toggleKeep (dieId : Nat) {s : FarkleEngine} : Reachable s → Reachable (toggleKeep dieId s)
  | bank (rnd : Nat → Rat) {s : FarkleEngine} : Reachable s → Reachable (bank rnd s)
  | passTurn (rnd : Nat → Rat) {s : FarkleEngine} : Reachable s → Reachable (passTurn rnd s)

end TS

-- Concrete Math.random() draws used in witnesses and counterexamples,
-- written as raw numerator/denominator pairs so the kernel can evaluate them.

/-- The draw 0, the smallest value Math.random() can return. -/
def draw0 : Rat := ⟨0, 1, by decide, by decide⟩

/-- The draw 1/6, yielding face value 1. -/
def draw1 : Rat := ⟨1, 6, by decide, by decide⟩

/-- The draw 1/4, yielding face value 2. -/
def draw2 : Rat := ⟨1, 4, by decide, by decide⟩

/-- The draw 1/2, yielding face value 3. -/
def draw3 : Rat := ⟨1, 2, by decide, by decide⟩

/-- The draw 7/12, yielding face value 4. -/
def draw4 : Rat := ⟨7, 12, by decide, by decide⟩

/-- The draw 3/4, yielding face value 5. -/
def draw5 : Rat := ⟨3, 4, by decide, by decide⟩

example : TS.randomFace draw0 = 0 ∧ TS.randomFace draw1 = 1 ∧ TS.randomFace draw2 = 2 ∧
    TS.randomFace draw3 = 3 ∧ TS.randomFace draw4 = 4 ∧ TS.randomFace draw5 = 5 := by decide

/-- A stream of draws producing the faces 2, 2, 3, 3, 4, 4 on one createDice
or six-dice reroll: no 1, no 5, no triple. -/
def noScoreStream (i : Nat) : Rat :=
  if i < 2 then draw2 else if i < 4 then draw3 else draw4

example :
    (TS.init ["A", "B"] (fun _ => draw2)).dice =
      [⟨0, 2, DieState.rolled⟩, ⟨1, 2, DieState.rolled⟩, ⟨2, 2, DieState.rolled⟩,
       ⟨3, 2, DieState.rolled⟩, ⟨4, 2, DieState.rolled⟩, ⟨5, 2, DieState.rolled⟩] := by decide

example :
    (TS.roll (fun _ => draw2) (TS.init ["A", "B"] (fun _ => draw2))).status =
      GameStatus.rolling := by decide

example :
    (TS.roll noScoreStream (TS.init ["A", "B"] (fun _ => draw2))).status =
      GameStatus.farkle := by decide

-- ---------------------------------------------------------------------------
-- The C++ core (src/farkle_core.cpp)
-- ---------------------------------------------------------------------------

namespace Cpp

/-- Observable state of the C++ FarkleEngine class (farkle_core.cpp
lines 21-29). -/
structure FarkleEngine where
  player_scores : List Nat
  current_player_index : Nat
  dice : List Die
  turn_score : Nat
  current_keep_score : Nat
  status : GameStatus
  message : String
deriving DecidableEq

/-- One draw of `uniform_int_distribution<>(1, 6)` (farkle_core.cpp line 67),
modelled by its contract: an arbitrary natural from the generator mapped
into [1,6]. -/
def dis (r : Nat) : Int := (r % 6 + 1 : Nat)

/-- Assign fresh values to every Rolled die (farkle_core.cpp lines 69-74);
the die at list position j consumes draw `rnd j`. -/
def assignValues (rnd : Nat → Nat) : Nat → List Die → List Die
  | _, [] => []
  | j, d :: rest =>
      (if d.state = DieState.rolled then { d with value := dis (rnd j) } else d)
        :: assignValues rnd (j + 1) rest

/-- roll() steps 1-3 (farkle_core.cpp lines 43-74): bank every Kept die and
fold the keep score into the turn score (unconditionally, unlike the TS
engine), hot-hand reset if nothing is left to roll, then reroll. -/
def rollCore (rnd : Nat → Nat) (s : FarkleEngine) : FarkleEngine :=
  let d1 := bankKept s.dice
  let d2 := if anyRolled d1 then d1 else setAllRolled d1
  { s with dice := assignValues rnd 0 d2,
           turn_score := s.turn_score + s.current_keep_score,
           current_keep_score := 0 }

/-- roll() (farkle_core.cpp lines 43-84). -/
def roll (rnd : Nat → Nat) (s : FarkleEngine) : FarkleEngine :=
  let s3 := rollCore rnd s
  if hasScoringPotential (rolledVals s3.dice) then
    { s3 with status := GameStatus.rolling }
  else
    { s3 with status := GameStatus.farkle, turn_score := 0, current_keep_score := 0 }

/-- recalc_keep_score (farkle_core.cpp lines 154-160). -/
def recalc (s : FarkleEngine) : FarkleEngine :=
  { s with current_keep_score := evaluate_scoring (keptVals s.dice) }

/-- toggle_keep (farkle_core.cpp lines 113-152).  The Rolled branch counts
Rolled and Kept dice of the clicked value combined, promotes Rolled dice
until three are Kept, and past three keeps only the clicked die.  Note that
every path that passes the three precondition checks ends in
recalc_keep_score, including the unscoreable-single fall-through. -/
def toggle_keep (die_id : Nat) (s : FarkleEngine) : FarkleEngine :=
  if s.status ≠ GameStatus.rolling then s
  else
    match s.dice.find? (fun d => decide (d.id = die_id)) with
    | none => s
    | some die =>
        if die.state = DieState.banked then s
        else if die.state = DieState.kept then
          recalc { s with dice := unkeepValue die.value s.dice }
        else
          let cr := countRolledVal s.dice die.value
          let ck := countKeptVal s.dice die.value
          if 3 ≤ cr + ck then
            if ck < 3 then
              recalc { s with dice := promoteKept die.value (3 - ck) s.dice }
            else
              recalc { s with dice := setKeptFirst die_id s.dice }
          else if die.value = 1 ∨ die.value = 5 then
            recalc { s with dice := setKeptFirst die_id s.dice }
          else
            recalc s

/-- pass_turn (farkle_core.cpp lines 177-184): reset the accumulators,
advance the player, set all dice Rolled, status Rolling, then roll(). -/
def pass_turn (rnd : Nat → Nat) (s : FarkleEngine) : FarkleEngine :=
  roll rnd
    { s with turn_score := 0, current_keep_score := 0,
             current_player_index := (s.current_player_index + 1) % s.player_scores.length,
             dice := setAllRolled s.dice, status := GameStatus.rolling }

/-- The constructor (farkle_core.cpp lines 31-41): scores 0, six dice with
ids 0..5 and value 1, zero accumulators, status Rolling, then one roll(). -/
def init (num_players : Nat) (rnd : Nat → Nat) : FarkleEngine :=
  roll rnd
    ⟨List.replicate num_players 0, 0,
      (List.range 6).map (fun i => ⟨i, 1, DieState.rolled⟩), 0, 0, GameStatus.rolling, ""⟩

end Cpp

example : (Cpp.init 2 (fun i => i)).dice =
    [⟨0, 1, DieState.rolled⟩, ⟨1, 2, DieState.rolled⟩, ⟨2, 3, DieState.rolled⟩,
     ⟨3, 4, DieState.rolled⟩, ⟨4, 5, DieState.rolled⟩, ⟨5, 6, DieState.rolled⟩] := by decide

example : (Cpp.init 2 (fun i => i)).status = GameStatus.rolling := by decide

example : (Cpp.init 2 (fun i => if i < 2 then 1 else if i < 4 then 2 else 3)).status =
    GameStatus.farkle := by decide

-- ---------------------------------------------------------------------------
-- Claim C1 — the scoring rule
-- ---------------------------------------------------------------------------

/-- Claim C1 (counterexample): the claim asserts that evaluateScoring returns
the canonical doubling score, in particular 2000 on [1,1,1,1]; the TS
evaluateScoring instead peels complete triples additively and scores the
fourth one as a single, giving 1100. -/
theorem claim_C1_counterexample : TS.evaluateScoring [1, 1, 1, 1] ≠ 2000 := by decide

lemma cpp_scoreFor_eq_spec (values : List Int) (i : Nat) :
    Cpp.scoreFor values i = specCanonicalFaceScore values i := by
  unfold Cpp.scoreFor specCanonicalFaceScore
  by_cases h3 : 3 ≤ values.count (i : Int)
  · simp [h3]
  · by_cases h1 : i = 1
    · subst h1
      simp [h3]
    · by_cases h5 : i = 5
      · subst h5
        simp [h3]
      · simp [h3, h1, h5]

/-- Claim C1 (amended): the C++ evaluate_scoring implements the canonical
doubling rule of the spec — for each face with count ≥ 3 it awards
base·2^(count−3) (base 1000 for ones, value×100 otherwise), leftover ones
100 each, leftover fives 50 each, everything else 0, the empty multiset 0 —
and gives 2000 on [1,1,1,1]; the TS evaluateScoring instead scores each
complete group of three at flat base value and gives 1100 on [1,1,1,1]. -/
theorem claim_C1_amended :
    (∀ values : List Int, Cpp.evaluate_scoring values = specCanonicalScore values)
    ∧ Cpp.evaluate_scoring [1, 1, 1, 1] = 2000
    ∧ TS.evaluateScoring [1, 1, 1, 1] = 1100
    ∧ Cpp.evaluate_scoring [] = 0 ∧ TS.evaluateScoring [] = 0 := by
  refine ⟨fun values => ?_, by decide, by decide, by decide, by decide⟩
  unfold Cpp.evaluate_scoring specCanonicalScore
  have h : Cpp.scoreFor values = specCanonicalFaceScore values :=
    funext (cpp_scoreFor_eq_spec values)
  rw [h]

-- ---------------------------------------------------------------------------
-- Claim C2 — toggleKeep on a Rolled die with n ≥ 3
-- ---------------------------------------------------------------------------

lemma countKeptVal_cons (d : Die) (l : List Die) (v : Int) :
    countKeptVal (d :: l) v
      = (if d.value = v ∧ d.state = DieState.kept then 1 else 0) + countKeptVal l v := by
  rw [countKeptVal, countKeptVal, List.countP_cons]
  by_cases h : d.value = v ∧ d.state = DieState.kept
  · simp [h, Nat.add_comm]
  · simp [h]

lemma countRolledVal_cons (d : Die) (l : List Die) (v : Int) :
    countRolledVal (d :: l) v
      = (if d.value = v ∧ d.state = DieState.rolled then 1 else 0) + countRolledVal l v := by
  rw [countRolledVal, countRolledVal, List.countP_cons]
  by_cases h : d.value = v ∧ d.state = DieState.rolled
  · simp [h, Nat.add_comm]
  · simp [h]

lemma countKeptVal_promoteKept (v : Int) (l : List Die) :
    ∀ needed : Nat,
      countKeptVal (promoteKept v needed l) v
        = countKeptVal l v + min needed (countRolledVal l v) := by
  induction l with
  | nil =>
      intro needed
      cases needed <;> simp [promoteKept, countKeptVal, countRolledVal]
  | cons d rest ih =>
      intro needed
      cases needed with
      | zero => simp [promoteKept]
      | succ n =>
          have hstep : promoteKept v (n + 1) (d :: rest)
              = if d.value = v ∧ d.state = DieState.rolled then
                  { d with state := DieState.kept } :: promoteKept v n rest
                else d :: promoteKept v (n + 1) rest := rfl
          rw [hstep]
          by_cases hd : d.value = v ∧ d.state = DieState.rolled
          · rw [if_pos hd, countKeptVal_cons, countKeptVal_cons, countRolledVal_cons,
              ih n, if_pos ⟨hd.1, rfl⟩, if_pos hd]
            have hnk : ¬(d.value = v ∧ d.state = DieState.kept) := by
              rintro ⟨-, hk⟩
              rw [hd.2] at hk
              cases hk
            rw [if_neg hnk]
            omega
          · rw [if_neg hd, countKeptVal_cons, countKeptVal_cons, countRolledVal_cons,
              ih (n + 1), if_neg hd]
            by_cases hk : d.value = v ∧ d.state = DieState.kept
            · rw [if_pos hk]
              omega
            · rw [if_neg hk]
              omega

/-- Claim C2 (counterexample): the claim requires that when the clicked
Rolled die's value already has three Kept dice (here three Kept 2s plus the
clicked Rolled 2, so n = 4 ≥ 3), toggleKeep marks the clicked die Kept.
The TS toggleKeep counts only Rolled dice of that value (one here), falls
through to the unscoreable-single branch and does nothing. -/
def c2CexState : TS.FarkleEngine :=
  ⟨[⟨0, PlayerType.human, "A", 0⟩, ⟨1, PlayerType.computer, "B", 0⟩], 0,
    [⟨0, 2, DieState.kept⟩, ⟨1, 2, DieState.kept⟩, ⟨2, 2, DieState.kept⟩,
     ⟨3, 2, DieState.rolled⟩, ⟨4, 3, DieState.rolled⟩, ⟨5, 4, DieState.rolled⟩],
    0, 200, GameStatus.rolling, ""⟩

/-- Claim C2 (counterexample): in `c2CexState` every hypothesis of the claim
holds with prior Kept count 3 ≥ 3, yet the TS toggleKeep leaves the clicked
die Rolled (a no-op) instead of marking it Kept. -/
theorem claim_C2_counterexample :
    c2CexState.status = GameStatus.rolling
    ∧ c2CexState.dice.find? (fun x => decide (x.id = 3)) = some ⟨3, 2, DieState.rolled⟩
    ∧ 3 ≤ countRolledVal c2CexState.dice 2 + countKeptVal c2CexState.dice 2
    ∧ 3 ≤ countKeptVal c2CexState.dice 2
    ∧ TS.toggleKeep 3 c2CexState = c2CexState
    ∧ (TS.toggleKeep 3 c2CexState).dice ≠ setKeptFirst 3 c2CexState.dice := by decide

/-- Claim C2 (amended): the property holds of the C++ toggle_keep — for a
Rolling state and a clicked Rolled die whose value has n = Rolled + Kept ≥ 3,
if fewer than three dice of that value were Kept the pool ends with exactly
three of them Kept, and if three or more were already Kept only the clicked
die is additionally marked Kept.  (The TS toggleKeep instead looks only at
the Rolled count, see the counterexample.) -/
theorem claim_C2_amended (s : Cpp.FarkleEngine) (did : Nat) (d : Die)
    (hst : s.status = GameStatus.rolling)
    (hfind : s.dice.find? (fun x => decide (x.id = did)) = some d)
    (hrolled : d.state = DieState.rolled)
    (hn : 3 ≤ countRolledVal s.dice d.value + countKeptVal s.dice d.value) :
    if countKeptVal s.dice d.value < 3 then
      countKeptVal ((Cpp.toggle_keep did s).dice) d.value = 3
    else
      (Cpp.toggle_keep did s).dice = setKeptFirst did s.dice := by
  have hnb : d.state ≠ DieState.banked := by
    rw [hrolled]
    intro h
    cases h
  have hnk : d.state ≠ DieState.kept := by
    rw [hrolled]
    intro h
    cases h
  unfold Cpp.toggle_keep
  rw [hst]
  simp only [ne_eq, not_true_eq_false, if_false, hfind]
  rw [if_neg hnb, if_neg hnk, if_pos hn]
  by_cases hck : countKeptVal s.dice d.value < 3
  · rw [if_pos hck, if_pos hck]
    show countKeptVal (promoteKept d.value (3 - countKeptVal s.dice d.value) s.dice) d.value = 3
    rw [countKeptVal_promoteKept]
    omega
  · rw [if_neg hck, if_neg hck]
    rfl

/-- Claim C2 (witness): a concrete Rolling state with three Rolled 2s and no
Kept 2s; clicking die 0 ends with exactly three Kept 2s. -/
def c2WitnessState : Cpp.FarkleEngine :=
  ⟨[0, 0], 0,
    [⟨0, 2, DieState.rolled⟩, ⟨1, 2, DieState.rolled⟩, ⟨2, 2, DieState.rolled⟩,
     ⟨3, 1, DieState.rolled⟩, ⟨4, 3, DieState.rolled⟩, ⟨5, 4, DieState.rolled⟩],
    0, 0, GameStatus.rolling, ""⟩

/-- Claim C2 (witness): the amended claim applied to `c2WitnessState` — the
clicked Rolled 2 promotes exactly three 2s to Kept. -/
theorem claim_C2_witness :
    countKeptVal ((Cpp.toggle_keep 0 c2WitnessState).dice) 2 = 3 := by
  have h := claim_C2_amended c2WitnessState 0 ⟨0, 2, DieState.rolled⟩
    rfl (by decide) rfl (by decide)
  have hc : countKeptVal c2WitnessState.dice 2 < 3 := by decide
  rw [if_pos hc] at h
  exact h

-- ---------------------------------------------------------------------------
-- Claim C3 — passTurn and construction end with an automatic roll
-- ---------------------------------------------------------------------------

/-- A concrete state used by the C3 counterexample: a fresh 2-player TS game
whose opening pool is all 2s. -/
def c3CexState : TS.FarkleEngine := TS.init ["A", "B"] (fun _ => draw2)

/-- The state the claim says passTurn passes to roll(): accumulators reset,
player advanced, all dice Rolled, status Rolling. -/
def c3ResetState : TS.FarkleEngine :=
  { c3CexState with
    turnScore := 0
    currentKeepScore := 0
    currentPlayerIndex := (c3CexState.currentPlayerIndex + 1) % c3CexState.players.length
    dice := setAllRolled c3CexState.dice
    status := GameStatus.rolling }

/-- Claim C3 (counterexample): with a random source that produces the
non-scoring faces 2,2,3,3,4,4, the TS passTurn leaves status Rolling — it
never performs the claimed roll(), whose Farkle check would have set status
Farkle.  Likewise the TS constructor ends with status Rolling on a
non-scoring opening pool because it never calls roll(). -/
theorem claim_C3_counterexample :
    (TS.passTurn noScoreStream c3CexState).status = GameStatus.rolling
    ∧ (TS.roll noScoreStream c3ResetState).status = GameStatus.farkle
    ∧ TS.passTurn noScoreStream c3CexState ≠ TS.roll noScoreStream c3ResetState
    ∧ hasScoringPotential (rolledVals (TS.init ["A", "B"] noScoreStream).dice) = false
    ∧ (TS.init ["A", "B"] noScoreStream).status = GameStatus.rolling := by decide

/-- Claim C3 (amended): the C++ pass_turn does exactly what the claim says —
it resets both accumulators to 0, advances current_player_index modulo the
player count, sets all six dice Rolled and status Rolling, and then
performs one roll() on that state — and the C++ constructor likewise ends
by calling roll() once; the TS passTurn instead installs a brand-new pool
of randomly-valued Rolled dice and returns without roll()'s Farkle check,
and the TS constructor performs no roll either. -/
theorem claim_C3_amended :
    (∀ (s : Cpp.FarkleEngine) (rnd : Nat → Nat),
      Cpp.pass_turn rnd s =
        Cpp.roll rnd ⟨s.player_scores,
          (s.current_player_index + 1) % s.player_scores.length,
          setAllRolled s.dice, 0, 0, GameStatus.rolling, s.message⟩)
    ∧ (∀ (n : Nat) (rnd : Nat → Nat),
      Cpp.init n rnd =
        Cpp.roll rnd ⟨List.replicate n 0, 0,
          (List.range 6).map (fun i => ⟨i, 1, DieState.rolled⟩),
          0, 0, GameStatus.rolling, ""⟩)
    ∧ (∀ (s : TS.FarkleEngine) (rnd : Nat → Rat),
      TS.passTurn rnd s =
        ⟨s.players, (s.currentPlayerIndex + 1) % s.players.length,
          TS.createDice rnd, 0, 0, GameStatus.rolling,
          (TS.getPlayer s.players ((s.currentPlayerIndex + 1) % s.players.length)).name
            ++ "\x27s Turn"⟩) :=
  ⟨fun _ _ => rfl, fun _ _ => rfl, fun _ _ => rfl⟩

-- ---------------------------------------------------------------------------
-- Claim C4 — the Farkle check on the newly rolled subset
-- ---------------------------------------------------------------------------

lemma rollHotHand_turnScore (s : TS.FarkleEngine) :
    (TS.rollHotHand s).turnScore = s.turnScore := by
  unfold TS.rollHotHand
  split <;> rfl

lemma rollHotHand_currentKeepScore (s : TS.FarkleEngine) :
    (TS.rollHotHand s).currentKeepScore = s.currentKeepScore := by
  unfold TS.rollHotHand
  split <;> rfl

lemma rollCore_turnScore (rnd : Nat → Rat) (s : TS.FarkleEngine) :
    (TS.rollCore rnd s).turnScore = (TS.rollBankPhase s).turnScore := by
  unfold TS.rollCore
  exact rollHotHand_turnScore _

lemma rollCore_currentKeepScore (rnd : Nat → Rat) (s : TS.FarkleEngine) :
    (TS.rollCore rnd s).currentKeepScore = (TS.rollBankPhase s).currentKeepScore := by
  unfold TS.rollCore
  exact rollHotHand_currentKeepScore _

/-- Claim C4: after any roll whose newly rolled subset has no 1, no 5, and
no face occurring three times within that subset (scoring potential false),
the state is Farkle with turnScore = 0 and currentKeepScore = 0 — the whole
turn pot, including amounts banked in earlier roll cycles of the same turn,
is wiped; when the subset has potential the status is Rolling. -/
theorem claim_C4 (s : TS.FarkleEngine) (rnd : Nat → Rat) (b : Bool)
    (h : hasScoringPotential (TS.newlyRolledValues rnd s) = b) :
    (TS.roll rnd s).status = (if b then GameStatus.rolling else GameStatus.farkle)
    ∧ (TS.roll rnd s).turnScore = (if b then (TS.rollBankPhase s).turnScore else 0)
    ∧ (TS.roll rnd s).currentKeepScore
        = (if b then (TS.rollBankPhase s).currentKeepScore else 0) := by
  have h2 : hasScoringPotential (rolledVals (TS.rollCore rnd s).dice) = b := h
  cases b with
  | true =>
      have hroll : TS.roll rnd s
          = { TS.rollCore rnd s with
              status := GameStatus.rolling, message := "Select dice to keep." } := by
        unfold TS.roll
        rw [if_pos h2]
      rw [hroll]
      refine ⟨by simp, ?_, ?_⟩
      · simp only [if_true]
        exact rollCore_turnScore rnd s
      · simp only [if_true]
        exact rollCore_currentKeepScore rnd s
  | false =>
      have hne : ¬ hasScoringPotential (rolledVals (TS.rollCore rnd s).dice) = true := by
        rw [h2]
        exact Bool.false_ne_true
      have hroll : TS.roll rnd s
          = { TS.rollCore rnd s with
              status := GameStatus.farkle, message := "Farkle! No points.",
              turnScore := 0, currentKeepScore := 0 } := by
        unfold TS.roll
        rw [if_neg hne]
      rw [hroll]
      refine ⟨by simp, by simp, by simp⟩

/-- Claim C4 (witness): a concrete opening state rerolled into the
non-scoring faces 2,2,3,3,4,4 ends in Farkle with both accumulators
zeroed. -/
theorem claim_C4_witness :
    (TS.roll noScoreStream c3CexState).status = GameStatus.farkle
    ∧ (TS.roll noScoreStream c3CexState).turnScore = 0
    ∧ (TS.roll noScoreStream c3CexState).currentKeepScore = 0 := by
  have h := claim_C4 c3CexState noScoreStream false (by decide)
  simpa using h

-- ---------------------------------------------------------------------------
-- Claim C5 — bank
-- ---------------------------------------------------------------------------

lemma getPlayer_addScore (ps : List Player) (i : Nat) (amt : Nat) (h : i < ps.length) :
    TS.getPlayer (TS.addScore ps i amt) i
      = { TS.getPlayer ps i with score := (TS.getPlayer ps i).score + amt } := by
  induction ps generalizing i with
  | nil => simp at h
  | cons p rest ih =>
      cases i with
      | zero => rfl
      | succ n =>
          have hn : n < rest.length := by simpa using h
          show TS.getPlayer (p :: TS.addScore rest n amt) (n + 1) = _

          simpa [TS.getPlayer] using ih n hn

/-- Claim C5: whenever turnScore + currentKeepScore > 0 (and the current
player index is valid), bank() folds currentKeepScore into turnScore, zeroes
currentKeepScore, banks every Kept die and adds the total to the current
player's cumulative score; if that total reaches 10000 the status becomes
Win with no further turn progression (player index and dice unchanged from
that point), otherwise it hands over to passTurn(). -/
theorem claim_C5 (s : TS.FarkleEngine) (rnd : Nat → Rat)
    (hpos : 0 < s.turnScore + s.currentKeepScore)
    (hidx : s.currentPlayerIndex < s.players.length) :
    if 10000 ≤ (TS.getPlayer s.players s.currentPlayerIndex).score
        + (s.turnScore + s.currentKeepScore) then
      TS.bank rnd s
        = { s with
            turnScore := s.turnScore + s.currentKeepScore
            currentKeepScore := 0
            dice := bankKept s.dice
            players := TS.addScore s.players s.currentPlayerIndex
              (s.turnScore + s.currentKeepScore)
            status := GameStatus.win
            message := (TS.getPlayer (TS.addScore s.players s.currentPlayerIndex
              (s.turnScore + s.currentKeepScore)) s.currentPlayerIndex).name ++ " Wins!" }
    else
      TS.bank rnd s
        = TS.passTurn rnd
            { s with
              turnScore := s.turnScore + s.currentKeepScore
              currentKeepScore := 0
              dice := bankKept s.dice
              players := TS.addScore s.players s.currentPlayerIndex
                (s.turnScore + s.currentKeepScore) } := by
  have hguard : ¬(s.currentKeepScore = 0 ∧ s.turnScore = 0) := by omega
  have hscore : (TS.getPlayer (TS.addScore s.players s.currentPlayerIndex
        (s.turnScore + s.currentKeepScore)) s.currentPlayerIndex).score
      = (TS.getPlayer s.players s.currentPlayerIndex).score
        + (s.turnScore + s.currentKeepScore) := by
    rw [getPlayer_addScore _ _ _ hidx]
  by_cases hwin : 10000 ≤ (TS.getPlayer s.players s.currentPlayerIndex).score
      + (s.turnScore + s.currentKeepScore)
  · rw [if_pos hwin]
    show TS.bank rnd s = _
    unfold TS.bank
    rw [if_neg hguard, if_pos (by rw [hscore]; exact hwin)]
  · rw [if_neg hwin]
    show TS.bank rnd s = _
    unfold TS.bank
    rw [if_neg hguard, if_neg (by rw [hscore]; exact hwin)]

/-- Claim C5 (witness): a single player at 9995 points banking a pot of
100 + 100 crosses 10000 and wins; the players list gains the 200. -/
def c5WitnessState : TS.FarkleEngine :=
  ⟨[⟨0, PlayerType.human, "A", 9995⟩], 0,
    [⟨0, 1, DieState.kept⟩, ⟨1, 2, DieState.banked⟩, ⟨2, 3, DieState.banked⟩,
     ⟨3, 4, DieState.banked⟩, ⟨4, 6, DieState.banked⟩, ⟨5, 2, DieState.banked⟩],
    100, 100, GameStatus.rolling, ""⟩

/-- Claim C5 (witness): banking the 200-point pot from 9995 reaches 10195,
sets Win, adds the pot to the player and leaves the player index alone. -/
theorem claim_C5_witness :
    (TS.bank (fun _ => draw2) c5WitnessState).status = GameStatus.win
    ∧ (TS.bank (fun _ => draw2) c5WitnessState).players
        = TS.addScore c5WitnessState.players 0 200
    ∧ (TS.bank (fun _ => draw2) c5WitnessState).currentPlayerIndex = 0 := by
  have h := claim_C5 c5WitnessState (fun _ => draw2) (by decide) (by decide)
  rw [if_pos (by decide)] at h
  rw [h]
  exact ⟨rfl, by decide, rfl⟩

-- ---------------------------------------------------------------------------
-- Claim C6 — rolled values stay in [1,6]
-- ---------------------------------------------------------------------------

lemma randomFace_bound (r : Rat) (h0 : 0 < r) (h1 : r < 1) :
    1 ≤ TS.randomFace r ∧ TS.randomFace r ≤ 6 := by
  rw [TS.randomFace_eq_ceil]
  constructor
  · have hpos : (0 : Int) < Int.ceil (r * 6) := by
      rw [Int.lt_ceil]
      push_cast
      nlinarith
    omega
  · rw [Int.ceil_le]
    push_cast
    nlinarith

lemma dis_bound (r : Nat) : 1 ≤ Cpp.dis r ∧ Cpp.dis r ≤ 6 := by
  unfold Cpp.dis
  have h : r % 6 < 6 := Nat.mod_lt _ (by omega)
  constructor <;> [skip; skip] <;> push_cast <;> omega

lemma ts_assignValues_bound (rnd : Nat → Rat) (hr : ∀ i, 0 < rnd i ∧ rnd i < 1) :
    ∀ (l : List Die) (j : Nat) (d : Die), d ∈ TS.assignValues rnd j l →
      d.state = DieState.rolled → 1 ≤ d.value ∧ d.value ≤ 6 := by
  intro l
  induction l with
  | nil =>
      intro j d hd
      cases hd
  | cons d0 rest ih =>
      intro j d hd hrolled
      rw [show TS.assignValues rnd j (d0 :: rest)
          = (if d0.state = DieState.rolled
              then { d0 with value := TS.randomFace (rnd j) } else d0)
            :: TS.assignValues rnd (j + 1) rest from rfl] at hd
      rcases List.mem_cons.mp hd with hhead | htail

      · by_cases h0 : d0.state = DieState.rolled
        · rw [if_pos h0] at hhead
          rw [hhead]
          exact randomFace_bound _ (hr j).1 (hr j).2
        · rw [if_neg h0] at hhead
          rw [hhead] at hrolled
          exact absurd hrolled h0
      · exact ih (j + 1) d htail hrolled

lemma cpp_assignValues_bound (rnd : Nat → Nat) :
    ∀ (l : List Die) (j : Nat) (d : Die), d ∈ Cpp.assignValues rnd j l →
      d.state = DieState.rolled → 1 ≤ d.value ∧ d.value ≤ 6 := by
  intro l
  induction l with
  | nil =>
      intro j d hd
      cases hd
  | cons d0 rest ih =>
      intro j d hd hrolled
      rw [show Cpp.assignValues rnd j (d0 :: rest)
          = (if d0.state = DieState.rolled
              then { d0 with value := Cpp.dis (rnd j) } else d0)
            :: Cpp.assignValues rnd (j + 1) rest from rfl] at hd
      rcases List.mem_cons.mp hd with hhead | htail
      · by_cases h0 : d0.state = DieState.rolled
        · rw [if_pos h0] at hhead
          rw [hhead]
          exact dis_bound (rnd j)
        · rw [if_neg h0] at hhead
          rw [hhead] at hrolled
          exact absurd hrolled h0
      · exact ih (j + 1) d htail hrolled

lemma ts_roll_dice (rnd : Nat → Rat) (s : TS.FarkleEngine) :
    (TS.roll rnd s).dice = (TS.rollCore rnd s).dice := by
  by_cases h : hasScoringPotential (rolledVals (TS.rollCore rnd s).dice) = true
  · have hr : TS.roll rnd s
        = { TS.rollCore rnd s with
            status := GameStatus.rolling, message := "Select dice to keep." } := by
      unfold TS.roll
      rw [if_pos h]
    rw [hr]
  · have hr : TS.roll rnd s
        = { TS.rollCore rnd s with
            status := GameStatus.farkle, message := "Farkle! No points.",
            turnScore := 0, currentKeepScore := 0 } := by
      unfold TS.roll
      rw [if_neg h]
    rw [hr]

lemma cpp_roll_dice (rnd : Nat → Nat) (s : Cpp.FarkleEngine) :
    (Cpp.roll rnd s).dice = (Cpp.rollCore rnd s).dice := by
  by_cases h : hasScoringPotential (rolledVals (Cpp.rollCore rnd s).dice) = true
  · have hr : Cpp.roll rnd s
        = { Cpp.rollCore rnd s with status := GameStatus.rolling } := by
      unfold Cpp.roll
      rw [if_pos h]
    rw [hr]
  · have hr : Cpp.roll rnd s
        = { Cpp.rollCore rnd s with
            status := GameStatus.farkle, turn_score := 0, current_keep_score := 0 } := by
      unfold Cpp.roll
      rw [if_neg h]
    rw [hr]

/-- Claim C6 (counterexample): the draw 0 is admissible for Math.random
(its range is [0,1)), yet `Math.ceil(0 * 6) = 0`, so after a roll fed the
constant draw 0 not every rolled die's value lies in [1,6]. -/
theorem claim_C6_counterexample :
    (0 ≤ draw0 ∧ draw0 < 1)
    ∧ ((TS.roll (fun _ => draw0) c3CexState).dice.all
        (fun d => decide (1 ≤ d.value ∧ d.value ≤ 6))) = false
    ∧ ((TS.roll (fun _ => draw0) c3CexState).dice.all
        (fun d => decide (d.state = DieState.rolled))) = true := by decide

/-- Claim C6 (amended): after any C++ roll every Rolled die's value is in
[1,6] for every behaviour of the generator (uniform_int_distribution
guarantees its range); after any TS roll the same holds provided every
Math.random draw is strictly between 0 and 1 — the admissible draw 0 breaks
it (see the counterexample). -/
theorem claim_C6_amended :
    (∀ (s : TS.FarkleEngine) (rnd : Nat → Rat), (∀ i, 0 < rnd i ∧ rnd i < 1) →
      ∀ d ∈ (TS.roll rnd s).dice, d.state = DieState.rolled →
        1 ≤ d.value ∧ d.value ≤ 6)
    ∧ (∀ (t : Cpp.FarkleEngine) (rndc : Nat → Nat),
      ∀ d ∈ (Cpp.roll rndc t).dice, d.state = DieState.rolled →
        1 ≤ d.value ∧ d.value ≤ 6) := by
  constructor
  · intro s rnd hr d hd hrolled
    rw [ts_roll_dice] at hd
    exact ts_assignValues_bound rnd hr _ 0 d hd hrolled
  · intro t rndc d hd hrolled
    rw [cpp_roll_dice] at hd
    exact cpp_assignValues_bound rndc _ 0 d hd hrolled

/-- Claim C6 (witness): the constant draw 1/4 lies in (0,1); die 0 of the
resulting pool is Rolled and its value 2 lies in [1,6]. -/
theorem claim_C6_witness :
    1 ≤ (Die.mk 0 2 DieState.rolled).value ∧ (Die.mk 0 2 DieState.rolled).value ≤ 6 := by
  have hr : ∀ i : Nat, 0 < (fun _ : Nat => draw2) i ∧ (fun _ : Nat => draw2) i < 1 := by
    intro i
    constructor
    · show 0 < draw2
      decide
    · show draw2 < 1
      decide
  exact claim_C6_amended.1 c3CexState (fun _ => draw2) hr
    ⟨0, 2, DieState.rolled⟩ (by decide) rfl

-- ---------------------------------------------------------------------------
-- Reachability invariants (claims C7 and C8)
-- ---------------------------------------------------------------------------

lemma keptVals_eq_nil (l : List Die) (h : ∀ d ∈ l, d.state ≠ DieState.kept) :
    keptVals l = [] := by
  unfold keptVals
  rw [List.map_eq_nil_iff, List.filter_eq_nil_iff]
  intro a ha
  simp [h a ha]

lemma mem_bankKept_state (l : List Die) : ∀ d ∈ bankKept l, d.state ≠ DieState.kept := by
  intro d hd
  unfold bankKept at hd
  rcases List.mem_map.mp hd with ⟨a, _, rfl⟩
  by_cases h : a.state = DieState.kept
  · rw [if_pos h]
    intro hc
    cases hc
  · rw [if_neg h]
    exact h

lemma mem_setAllRolled_state (l : List Die) :
    ∀ d ∈ setAllRolled l, d.state = DieState.rolled := by
  intro d hd
  unfold setAllRolled at hd
  rcases List.mem_map.mp hd with ⟨a, _, rfl⟩
  rfl

lemma anyKept_false_keptFree (l : List Die) (h : anyKept l = false) :
    ∀ d ∈ l, d.state ≠ DieState.kept := by
  intro d hd
  have := List.any_eq_false.mp h d hd
  simpa using this

lemma mem_ts_assignValues_state (rnd : Nat → Rat) :
    ∀ (l : List Die) (j : Nat), (∀ d ∈ l, d.state ≠ DieState.kept) →
      ∀ d ∈ TS.assignValues rnd j l, d.state ≠ DieState.kept := by
  intro l
  induction l with
  | nil =>
      intro j _ d hd
      cases hd
  | cons d0 rest ih =>
      intro j hl d hd
      rw [show TS.assignValues rnd j (d0 :: rest)
          = (if d0.state = DieState.rolled
              then { d0 with value := TS.randomFace (rnd j) } else d0)
            :: TS.assignValues rnd (j + 1) rest from rfl] at hd
      rcases List.mem_cons.mp hd with hhead | htail
      · by_cases h0 : d0.state = DieState.rolled
        · rw [if_pos h0] at hhead
          rw [hhead]
          show d0.state ≠ DieState.kept
          exact hl d0 (List.mem_cons_self d0 rest)
        · rw [if_neg h0] at hhead
          rw [hhead]
          exact hl d0 (List.mem_cons_self d0 rest)
      · exact ih (j + 1) (fun x hx => hl x (List.mem_cons_of_mem _ hx)) d htail

lemma bankPhase_keptFree (s : TS.FarkleEngine) :
    ∀ d ∈ (TS.rollBankPhase s).dice, d.state ≠ DieState.kept := by
  unfold TS.rollBankPhase
  by_cases h : anyKept s.dice = true
  · rw [if_pos h]
    exact mem_bankKept_state s.dice
  · rw [if_neg h]
    have hb : anyKept s.dice = false := by
      revert h
      cases anyKept s.dice <;> simp
    exact anyKept_false_keptFree s.dice hb

lemma hotHand_keptFree (x : TS.FarkleEngine) (hx : ∀ d ∈ x.dice, d.state ≠ DieState.kept) :
    ∀ d ∈ (TS.rollHotHand x).dice, d.state ≠ DieState.kept := by
  unfold TS.rollHotHand
  by_cases h : anyRolled x.dice = true
  · rw [if_pos h]
    exact hx
  · rw [if_neg h]
    intro d hd
    rw [mem_setAllRolled_state x.dice d hd]
    intro hc
    cases hc

lemma ts_roll_keptVals (rnd : Nat → Rat) (s : TS.FarkleEngine) :
    keptVals ((TS.roll rnd s).dice) = [] := by
  rw [ts_roll_dice]
  apply keptVals_eq_nil
  show ∀ d ∈ TS.assignValues rnd 0 (TS.rollHotHand (TS.rollBankPhase s)).dice, _
  exact mem_ts_assignValues_state rnd _ 0 (hotHand_keptFree _ (bankPhase_keptFree s))

lemma ts_roll_cks (rnd : Nat → Rat) (s : TS.FarkleEngine) :
    (TS.roll rnd s).currentKeepScore = 0
    ∨ ((TS.roll rnd s).currentKeepScore = s.currentKeepScore ∧ anyKept s.dice = false) := by
  by_cases h : hasScoringPotential (rolledVals (TS.rollCore rnd s).dice) = true
  · have hr : TS.roll rnd s
        = { TS.rollCore rnd s with
            status := GameStatus.rolling, message := "Select dice to keep." } := by
      unfold TS.roll
      rw [if_pos h]
    rw [hr]
    show (TS.rollCore rnd s).currentKeepScore = 0
      ∨ ((TS.rollCore rnd s).currentKeepScore = s.currentKeepScore ∧ anyKept s.dice = false)
    have hc : (TS.rollCore rnd s).currentKeepScore = (TS.rollBankPhase s).currentKeepScore :=
      rollCore_currentKeepScore rnd s
    rw [hc]
    unfold TS.rollBankPhase
    by_cases hk : anyKept s.dice = true
    · rw [if_pos hk]
      exact Or.inl rfl
    · rw [if_neg hk]
      refine Or.inr ⟨rfl, ?_⟩
      revert hk
      cases anyKept s.dice <;> simp
  · have hr : TS.roll rnd s
        = { TS.rollCore rnd s with
            status := GameStatus.farkle, message := "Farkle! No points.",
            turnScore := 0, currentKeepScore := 0 } := by
      unfold TS.roll
      rw [if_neg h]
    rw [hr]
    exact Or.inl rfl

/-- Every toggleKeep call is either a silent no-op or ends in a
recalcKeepScore over a pool transformed by one of the three selection
mutations. -/
lemma toggleKeep_shape (dieId : Nat) (s : TS.FarkleEngine) :
    TS.toggleKeep dieId s = s
    ∨ (∃ v, TS.toggleKeep dieId s = TS.recalcKeepScore { s with dice := unkeepValue v s.dice })
    ∨ (∃ v, TS.toggleKeep dieId s = TS.recalcKeepScore { s with dice := promoteKept v 3 s.dice })
    ∨ TS.toggleKeep dieId s = TS.recalcKeepScore { s with dice := setKeptFirst dieId s.dice } := by
  unfold TS.toggleKeep
  by_cases h1 : s.status ≠ GameStatus.rolling
  · rw [if_pos h1]
    exact Or.inl rfl
  · rw [if_neg h1]
    cases hfind : s.dice.find? (fun d => decide (d.id = dieId)) with
    | none => exact Or.inl rfl
    | some die =>
        dsimp only
        by_cases h2 : die.state = DieState.banked
        · rw [if_pos h2]
          exact Or.inl rfl
        · rw [if_neg h2]
          by_cases h3 : die.state = DieState.kept
          · rw [if_pos h3]
            exact Or.inr (Or.inl ⟨die.value, rfl⟩)
          · rw [if_neg h3]
            by_cases h4 : 3 ≤ countRolledVal s.dice die.value
            · rw [if_pos h4]
              exact Or.inr (Or.inr (Or.inl ⟨die.value, rfl⟩))
            · rw [if_neg h4]
              by_cases h5 : die.value = 1 ∨ die.value = 5
              · rw [if_pos h5]
                exact Or.inr (Or.inr (Or.inr rfl))
              · rw [if_neg h5]
                exact Or.inl rfl

lemma createDice_keptFree (rnd : Nat → Rat) :
    ∀ d ∈ TS.createDice rnd, d.state ≠ DieState.kept := by
  intro d hd
  unfold TS.createDice at hd
  rcases List.mem_map.mp hd with ⟨i, _, rfl⟩
  intro hc
  cases hc

lemma ts_passTurn_cks (rnd : Nat → Rat) (t : TS.FarkleEngine) :
    (TS.passTurn rnd t).currentKeepScore
      = TS.evaluateScoring (keptVals (TS.passTurn rnd t).dice) := by
  show (0 : Nat) = TS.evaluateScoring (keptVals (TS.createDice rnd))
  rw [keptVals_eq_nil _ (createDice_keptFree rnd)]
  decide

/-- Claim C7: in every reachable TS engine state, currentKeepScore equals
the Scoring Evaluator applied to the values of the currently Kept dice. -/
theorem claim_C7 (s : TS.FarkleEngine) (h : TS.Reachable s) :
    s.currentKeepScore = TS.evaluateScoring (keptVals s.dice) := by
  induction h with
  | init names rnd =>
      show (0 : Nat) = TS.evaluateScoring (keptVals (TS.createDice rnd))
      rw [keptVals_eq_nil _ (createDice_keptFree rnd)]
      decide
  | roll rnd _ ih =>
      rename_i t _
      rw [ts_roll_keptVals]
      rcases ts_roll_cks rnd t with h0 | ⟨heq, hfree⟩
      · rw [h0]
        decide
      · rw [heq, ih, keptVals_eq_nil t.dice (anyKept_false_keptFree t.dice hfree)]
  | toggleKeep dieId _ ih =>
      rename_i t _
      rcases toggleKeep_shape dieId t with h0 | ⟨v, h0⟩ | ⟨v, h0⟩ | h0 <;> rw [h0]
      · exact ih
      all_goals rfl
  | bank rnd _ ih =>
      rename_i t _
      unfold TS.bank
      by_cases hg : t.currentKeepScore = 0 ∧ t.turnScore = 0
      · rw [if_pos hg]
        exact ih
      · rw [if_neg hg]
        by_cases hw : 10000 ≤ (TS.getPlayer
            (TS.addScore t.players t.currentPlayerIndex (t.turnScore + t.currentKeepScore))
            t.currentPlayerIndex).score
        · rw [if_pos hw]
          show (0 : Nat) = TS.evaluateScoring (keptVals (bankKept t.dice))
          rw [keptVals_eq_nil _ (mem_bankKept_state t.dice)]
          decide
        · rw [if_neg hw]
          exact ts_passTurn_cks rnd _
  | passTurn rnd _ _ =>
      exact ts_passTurn_cks rnd _

/-- Claim C7 (witness): the invariant at the constructed initial state. -/
theorem claim_C7_witness :
    (TS.init ["A", "B"] (fun _ => draw2)).currentKeepScore
      = TS.evaluateScoring (keptVals (TS.init ["A", "B"] (fun _ => draw2)).dice) :=
  claim_C7 _ (TS.Reachable.init ["A", "B"] (fun _ => draw2))

-- ---------------------------------------------------------------------------
-- Claim C8 — six dice, one state each, stable ids
-- ---------------------------------------------------------------------------

lemma diceIds_map (f : Die → Die) (h : ∀ d, (f d).id = d.id) (l : List Die) :
    diceIds (l.map f) = diceIds l := by
  induction l with
  | nil => rfl
  | cons d rest ih =>
      rw [show diceIds ((d :: rest).map f) = (f d).id :: diceIds (rest.map f) from rfl,
        show diceIds (d :: rest) = d.id :: diceIds rest from rfl, h d, ih]

lemma diceIds_bankKept (l : List Die) : diceIds (bankKept l) = diceIds l := by
  apply diceIds_map
  intro d
  by_cases h : d.state = DieState.kept
  · rw [if_pos h]
  · rw [if_neg h]

lemma diceIds_setAllRolled (l : List Die) : diceIds (setAllRolled l) = diceIds l :=
  diceIds_map (fun d => { d with state := DieState.rolled }) (fun _ => rfl) l

lemma diceIds_unkeepValue (v : Int) (l : List Die) :
    diceIds (unkeepValue v l) = diceIds l := by
  apply diceIds_map
  intro d
  by_cases h : d.value = v ∧ d.state = DieState.kept
  · rw [if_pos h]
  · rw [if_neg h]

lemma diceIds_promoteKept (v : Int) :
    ∀ (l : List Die) (needed : Nat), diceIds (promoteKept v needed l) = diceIds l := by
  intro l
  induction l with
  | nil =>
      intro needed
      cases needed <;> rfl
  | cons d rest ih =>
      intro needed
      cases needed with
      | zero => rfl
      | succ n =>
          rw [show promoteKept v (n + 1) (d :: rest)
              = if d.value = v ∧ d.state = DieState.rolled then
                  { d with state := DieState.kept } :: promoteKept v n rest
                else d :: promoteKept v (n + 1) rest from rfl]
          by_cases hd : d.value = v ∧ d.state = DieState.rolled
          · rw [if_pos hd]
            show d.id :: diceIds (promoteKept v n rest) = d.id :: diceIds rest
            rw [ih n]
          · rw [if_neg hd]
            show d.id :: diceIds (promoteKept v (n + 1) rest) = d.id :: diceIds rest
            rw [ih (n + 1)]

lemma diceIds_setKeptFirst (did : Nat) :
    ∀ l : List Die, diceIds (setKeptFirst did l) = diceIds l := by
  intro l
  induction l with
  | nil => rfl
  | cons d rest ih =>
      rw [show setKeptFirst did (d :: rest)
          = if d.id = did then { d with state := DieState.kept } :: rest
            else d :: setKeptFirst did rest from rfl]
      by_cases h : d.id = did
      · rw [if_pos h]
        rfl
      · rw [if_neg h]
        show d.id :: diceIds (setKeptFirst did rest) = d.id :: diceIds rest
        rw [ih]

lemma diceIds_ts_assignValues (rnd : Nat → Rat) :
    ∀ (l : List Die) (j : Nat), diceIds (TS.assignValues rnd j l) = diceIds l := by
  intro l
  induction l with
  | nil => intro j; rfl
  | cons d rest ih =>
      intro j
      rw [show TS.assignValues rnd j (d :: rest)
          = (if d.state = DieState.rolled
              then { d with value := TS.randomFace (rnd j) } else d)
            :: TS.assignValues rnd (j + 1) rest from rfl]
      by_cases h : d.state = DieState.rolled
      · rw [if_pos h]
        show d.id :: diceIds (TS.assignValues rnd (j + 1) rest) = d.id :: diceIds rest
        rw [ih]
      · rw [if_neg h]
        show d.id :: diceIds (TS.assignValues rnd (j + 1) rest) = d.id :: diceIds rest
        rw [ih]

lemma ts_roll_diceIds (rnd : Nat → Rat) (s : TS.FarkleEngine) :
    diceIds ((TS.roll rnd s).dice) = diceIds s.dice := by
  rw [ts_roll_dice]
  show diceIds (TS.assignValues rnd 0 (TS.rollHotHand (TS.rollBankPhase s)).dice) = _
  rw [diceIds_ts_assignValues]
  have hh : diceIds ((TS.rollHotHand (TS.rollBankPhase s)).dice)
      = diceIds ((TS.rollBankPhase s).dice) := by
    unfold TS.rollHotHand
    by_cases h : anyRolled (TS.rollBankPhase s).dice = true
    · rw [if_pos h]
    · rw [if_neg h]
      exact diceIds_setAllRolled _
  rw [hh]
  unfold TS.rollBankPhase
  by_cases h : anyKept s.dice = true
  · rw [if_pos h]
    exact diceIds_bankKept s.dice
  · rw [if_neg h]

lemma createDice_diceIds (rnd : Nat → Rat) :
    diceIds (TS.createDice rnd) = [0, 1, 2, 3, 4, 5] := rfl

lemma reachable_diceIds (s : TS.FarkleEngine) (h : TS.Reachable s) :
    diceIds s.dice = [0, 1, 2, 3, 4, 5] := by
  induction h with
  | init names rnd => exact createDice_diceIds rnd
  | roll rnd _ ih =>
      rename_i t _
      rw [ts_roll_diceIds]
      exact ih
  | toggleKeep dieId _ ih =>
      rename_i t _
      rcases toggleKeep_shape dieId t with h0 | ⟨v, h0⟩ | ⟨v, h0⟩ | h0 <;> rw [h0]
      · exact ih
      · show diceIds (unkeepValue v t.dice) = _
        rw [diceIds_unkeepValue]
        exact ih
      · show diceIds (promoteKept v 3 t.dice) = _
        rw [diceIds_promoteKept]
        exact ih
      · show diceIds (setKeptFirst dieId t.dice) = _
        rw [diceIds_setKeptFirst]
        exact ih
  | bank rnd _ ih =>
      rename_i t _
      unfold TS.bank
      by_cases hg : t.currentKeepScore = 0 ∧ t.turnScore = 0
      · rw [if_pos hg]
        exact ih
      · rw [if_neg hg]
        by_cases hw : 10000 ≤ (TS.getPlayer
            (TS.addScore t.players t.currentPlayerIndex (t.turnScore + t.currentKeepScore))
            t.currentPlayerIndex).score
        · rw [if_pos hw]
          show diceIds (bankKept t.dice) = _
          rw [diceIds_bankKept]
          exact ih
        · rw [if_neg hw]
          exact createDice_diceIds rnd
  | passTurn rnd _ _ =>
      exact createDice_diceIds rnd

lemma count_states (l : List Die) :
    countRolled l + countKept l + countBanked l = l.length := by
  induction l with
  | nil => rfl
  | cons d rest ih =>
      unfold countRolled countKept countBanked at *
      rw [List.countP_cons, List.countP_cons, List.countP_cons]
      cases hd : d.state <;> simp [hd] <;> omega

/-- Claim C8: in every reachable TS engine state the pool holds exactly six
dice, each in exactly one of the three states (the Rolled, Kept and Banked
counts sum to 6), and the ids are stably 0..5, pairwise distinct. -/
theorem claim_C8 (s : TS.FarkleEngine) (h : TS.Reachable s) :
    s.dice.length = 6
    ∧ countRolled s.dice + countKept s.dice + countBanked s.dice = 6
    ∧ diceIds s.dice = [0, 1, 2, 3, 4, 5]
    ∧ (diceIds s.dice).Nodup := by
  have hid := reachable_diceIds s h
  have hlen : s.dice.length = 6 := by
    have h6 : (diceIds s.dice).length = 6 := by
      rw [hid]
      rfl
    simpa [diceIds] using h6
  refine ⟨hlen, ?_, hid, ?_⟩
  · rw [count_states, hlen]
  · rw [hid]
    decide

/-- Claim C8 (witness): the invariant at the constructed initial state. -/
theorem claim_C8_witness :
    (TS.init ["A"] (fun _ => draw3)).dice.length = 6
    ∧ countRolled (TS.init ["A"] (fun _ => draw3)).dice
        + countKept (TS.init ["A"] (fun _ => draw3)).dice
        + countBanked (TS.init ["A"] (fun _ => draw3)).dice = 6
    ∧ diceIds (TS.init ["A"] (fun _ => draw3)).dice = [0, 1, 2, 3, 4, 5]
    ∧ (diceIds (TS.init ["A"] (fun _ => draw3)).dice).Nodup :=
  claim_C8 _ (TS.Reachable.init ["A"] (fun _ => draw3))

-- ---------------------------------------------------------------------------
-- Claim C9 — invalid toggleKeep targets are silent no-ops
-- ---------------------------------------------------------------------------

/-- Claim C9: toggleKeep leaves the whole observable state unchanged (and,
being a total function, raises nothing) whenever a precondition fails: the
status is not Rolling, no die carries the id, the die is Banked, or the die
is Rolled with value 2/3/4/6 while fewer than three dice of that value are
available (Rolled or Kept). -/
theorem claim_C9 (s : TS.FarkleEngine) (dieId : Nat)
    (h : s.status ≠ GameStatus.rolling
      ∨ s.dice.find? (fun d => decide (d.id = dieId)) = none
      ∨ (∃ d, s.dice.find? (fun d => decide (d.id = dieId)) = some d
          ∧ d.state = DieState.banked)
      ∨ (∃ d, s.dice.find? (fun d => decide (d.id = dieId)) = some d
          ∧ d.state = DieState.rolled
          ∧ (d.value = 2 ∨ d.value = 3 ∨ d.value = 4 ∨ d.value = 6)
          ∧ countRolledVal s.dice d.value + countKeptVal s.dice d.value < 3)) :
    TS.toggleKeep dieId s = s := by
  unfold TS.toggleKeep
  by_cases hst : s.status ≠ GameStatus.rolling
  · rw [if_pos hst]
  · rw [if_neg hst]
    rcases h with h1 | h2 | ⟨d, hf, hb⟩ | ⟨d, hf, hrolled, hv, hcnt⟩
    · exact absurd h1 hst
    · rw [h2]
    · rw [hf]
      dsimp only
      rw [if_pos hb]
    · rw [hf]
      dsimp only
      have hnb : ¬ d.state = DieState.banked := by
        rw [hrolled]
        intro hc
        cases hc
      have hnk : ¬ d.state = DieState.kept := by
        rw [hrolled]
        intro hc
        cases hc
      rw [if_neg hnb, if_neg hnk,
        if_neg (show ¬ 3 ≤ countRolledVal s.dice d.value by
          have hle : countRolledVal s.dice d.value
              ≤ countRolledVal s.dice d.value + countKeptVal s.dice d.value :=
            Nat.le_add_right _ _
          omega),
        if_neg (show ¬ (d.value = 1 ∨ d.value = 5) by
          rintro (h1 | h5) <;> rcases hv with h | h | h | h <;> omega)]

/-- Claim C9 (witness): with status Farkle, toggleKeep on die 0 changes
nothing. -/
def c9WitnessState : TS.FarkleEngine :=
  { c3CexState with status := GameStatus.farkle }

/-- Claim C9 (witness): the no-op at a Farkle-status state. -/
theorem claim_C9_witness : TS.toggleKeep 0 c9WitnessState = c9WitnessState :=
  claim_C9 c9WitnessState 0 (Or.inl (by decide))

-- ---------------------------------------------------------------------------
-- Claim C10 — terminal statuses are not frozen
-- ---------------------------------------------------------------------------

lemma addScore_length (ps : List Player) (i : Nat) (amt : Nat) :
    (TS.addScore ps i amt).length = ps.length := by
  induction ps generalizing i with
  | nil => rfl
  | cons p rest ih =>
      cases i with
      | zero => rfl
      | succ n =>
          show (p :: TS.addScore rest n amt).length = (p :: rest).length
          simp [ih]

lemma getPlayer_addScore_score (ps : List Player) (i : Nat) (amt : Nat) (h : i < ps.length) :
    (TS.getPlayer (TS.addScore ps i amt) i).score = (TS.getPlayer ps i).score + amt := by
  rw [getPlayer_addScore ps i amt h]

lemma bankPhase_status (s : TS.FarkleEngine) (st : GameStatus) :
    TS.rollBankPhase { s with status := st } = { TS.rollBankPhase s with status := st } := by
  unfold TS.rollBankPhase
  dsimp only
  by_cases h : anyKept s.dice = true
  · rw [if_pos h, if_pos h]
  · rw [if_neg h, if_neg h]

lemma hotHand_status (s : TS.FarkleEngine) (st : GameStatus) :
    TS.rollHotHand { s with status := st } = { TS.rollHotHand s with status := st } := by
  unfold TS.rollHotHand
  dsimp only
  by_cases h : anyRolled s.dice = true
  · rw [if_pos h, if_pos h]
  · rw [if_neg h, if_neg h]

lemma rollCore_status (rnd : Nat → Rat) (s : TS.FarkleEngine) (st : GameStatus) :
    TS.rollCore rnd { s with status := st } = { TS.rollCore rnd s with status := st } := by
  unfold TS.rollCore
  rw [bankPhase_status, hotHand_status]

lemma ts_roll_status_blind (rnd : Nat → Rat) (s : TS.FarkleEngine) (st : GameStatus) :
    TS.roll rnd { s with status := st } = TS.roll rnd s := by
  unfold TS.roll
  rw [rollCore_status]

/-- Claim C10: neither roll() nor bank() consults the game status.  A roll
behaves identically whatever the stored status (in particular while Farkle
or Win), and after a bank() that ended in Win committing a positive
turnScore t, turnScore still holds t and a second bank() adds t to the
winning player's cumulative score again, leaving the status Win. -/
theorem claim_C10 :
    (∀ (s : TS.FarkleEngine) (rnd : Nat → Rat) (st : GameStatus),
        TS.roll rnd { s with status := st } = TS.roll rnd s)
    ∧ (∀ (s : TS.FarkleEngine) (rnd rnd2 : Nat → Rat),
        (TS.bank rnd s).status = GameStatus.win →
        0 < (TS.bank rnd s).turnScore →
        s.currentPlayerIndex < s.players.length →
          (TS.bank rnd2 (TS.bank rnd s)).players
            = TS.addScore (TS.bank rnd s).players (TS.bank rnd s).currentPlayerIndex
                (TS.bank rnd s).turnScore
          ∧ (TS.getPlayer (TS.bank rnd2 (TS.bank rnd s)).players
                (TS.bank rnd s).currentPlayerIndex).score
            = (TS.getPlayer (TS.bank rnd s).players
                (TS.bank rnd s).currentPlayerIndex).score + (TS.bank rnd s).turnScore
          ∧ (TS.bank rnd2 (TS.bank rnd s)).status = GameStatus.win) := by
  constructor
  · exact fun s rnd st => ts_roll_status_blind rnd s st
  · intro s rnd rnd2 hwin hts hidx
    by_cases hg : s.currentKeepScore = 0 ∧ s.turnScore = 0
    · have hb : TS.bank rnd s = s := by
        unfold TS.bank
        rw [if_pos hg]
      rw [hb] at hts
      omega
    · by_cases hw : 10000 ≤ (TS.getPlayer
          (TS.addScore s.players s.currentPlayerIndex (s.turnScore + s.currentKeepScore))
          s.currentPlayerIndex).score
      · have hb : TS.bank rnd s
            = { s with
                turnScore := s.turnScore + s.currentKeepScore
                currentKeepScore := 0
                dice := bankKept s.dice
                players := TS.addScore s.players s.currentPlayerIndex
                  (s.turnScore + s.currentKeepScore)
                status := GameStatus.win
                message := (TS.getPlayer
                  (TS.addScore s.players s.currentPlayerIndex
                    (s.turnScore + s.currentKeepScore)) s.currentPlayerIndex).name
                  ++ " Wins!" } := by
          unfold TS.bank
          rw [if_neg hg, if_pos hw]
        rw [hb]
        rw [hb] at hts
        dsimp only at hts ⊢
        have hglen : s.currentPlayerIndex
            < (TS.addScore s.players s.currentPlayerIndex
                (s.turnScore + s.currentKeepScore)).length := by
          rw [addScore_length]
          exact hidx
        have hg2 : ¬((0 : Nat) = 0 ∧ s.turnScore + s.currentKeepScore = 0) := by
          omega
        have hw2 : 10000 ≤ (TS.getPlayer
            (TS.addScore
              (TS.addScore s.players s.currentPlayerIndex
                (s.turnScore + s.currentKeepScore))
              s.currentPlayerIndex
              (s.turnScore + s.currentKeepScore + 0))
            s.currentPlayerIndex).score := by
          rw [getPlayer_addScore_score _ _ _ hglen]
          omega
        unfold TS.bank
        dsimp only
        rw [if_neg hg2, if_pos hw2]
        refine ⟨rfl, ?_, rfl⟩
        rw [getPlayer_addScore_score _ _ _ hglen]
        omega
      · have hb : TS.bank rnd s
            = TS.passTurn rnd
                { s with
                  turnScore := s.turnScore + s.currentKeepScore
                  currentKeepScore := 0
                  dice := bankKept s.dice
                  players := TS.addScore s.players s.currentPlayerIndex
                    (s.turnScore + s.currentKeepScore) } := by
          unfold TS.bank
          rw [if_neg hg, if_neg hw]
        rw [hb] at hwin
        have hcontra : GameStatus.rolling = GameStatus.win := hwin
        cases hcontra

/-- Claim C10 (witness): a single player at 9995 banking 5 wins; banking
again adds the still-standing 5 to the winner's score once more. -/
def c10WitnessState : TS.FarkleEngine :=
  ⟨[⟨0, PlayerType.human, "A", 9995⟩], 0,
    [⟨0, 1, DieState.banked⟩, ⟨1, 2, DieState.banked⟩, ⟨2, 3, DieState.banked⟩,
     ⟨3, 4, DieState.banked⟩, ⟨4, 6, DieState.banked⟩, ⟨5, 2, DieState.banked⟩],
    5, 0, GameStatus.rolling, ""⟩

/-- Claim C10 (witness): the double-bank consequence at `c10WitnessState`. -/
theorem claim_C10_witness :
    (TS.bank (fun _ => draw2) (TS.bank (fun _ => draw2) c10WitnessState)).players
      = TS.addScore (TS.bank (fun _ => draw2) c10WitnessState).players
          (TS.bank (fun _ => draw2) c10WitnessState).currentPlayerIndex
          (TS.bank (fun _ => draw2) c10WitnessState).turnScore
    ∧ (TS.getPlayer
        (TS.bank (fun _ => draw2) (TS.bank (fun _ => draw2) c10WitnessState)).players
        (TS.bank (fun _ => draw2) c10WitnessState).currentPlayerIndex).score
      = (TS.getPlayer (TS.bank (fun _ => draw2) c10WitnessState).players
          (TS.bank (fun _ => draw2) c10WitnessState).currentPlayerIndex).score
        + (TS.bank (fun _ => draw2) c10WitnessState).turnScore
    ∧ (TS.bank (fun _ => draw2) (TS.bank (fun _ => draw2) c10WitnessState)).status
      = GameStatus.win :=
  claim_C10.2 c10WitnessState (fun _ => draw2) (fun _ => draw2)
    (by decide) (by decide) (by decide)
